import Mathlib

/-!
Shallow embedding of the firmware-file codec of `pkg/uefi/file.go` and the
CBFS payload-record decoder of `pkg/cbfs/payload.go`.

Machine bytes are modelled as `Nat`; `uint8` arithmetic is made explicit with
`% 256` (`sub8` below is wrap-around byte subtraction), `uint64` arithmetic
with `% 18446744073709551616`.  Buffers are `List Nat`.  Go's `guid.GUID` (an external
package) is kept as its 16-byte little-endian serialised form, which is all
the codec ever observes of it.
-/

deriving instance DecidableEq for Except

/-- `bs[i]`, 0 past the end: models indexing into a byte slice at an index
the surrounding code has bounds-checked. -/
def byteAt (bs : List Nat) (i : Nat) : Nat := bs.getD i 0

/-- Modelled from the spec: `Checksum8` (`pkg/uefi/utils.go`, not among the
given files) — "Additive sum of bytes modulo 256. Empty input yields 0." -/
def Checksum8 (bs : List Nat) : Nat := bs.sum % 256

/-- Wrap-around `uint8` subtraction `a - b`, on numbers standing for bytes. -/
def sub8 (a b : Nat) : Nat := (a % 256 + 256 - b % 256) % 256

/-- `[3]uint8`, the 3-byte size field. -/
structure ThreeUint8 where
  b0 : Nat
  b1 : Nat
  b2 : Nat
deriving DecidableEq

/-- Modelled from the spec: `Read3Size` (`pkg/uefi/utils.go`, not among the
given files) — "interprets three bytes little-endian as a 24-bit unsigned
integer." -/
def Read3Size (t : ThreeUint8) : Nat := t.b0 + 256 * t.b1 + 65536 * t.b2

/-- Modelled from the spec: `Write3Size` (`pkg/uefi/utils.go`, not among the
given files) — "writes the low 24 bits; inputs exceeding `0xFFFFFF` are
saturated to `0xFFFFFF`". -/
def Write3Size (size : Nat) : ThreeUint8 :=
  if 0xFFFFFF < size then ⟨0xFF, 0xFF, 0xFF⟩
  else ⟨size % 256, size / 256 % 256, size / 65536 % 256⟩

/-- `IntegrityCheck` holds the two 8 bit checksums for the file header and
body separately. -/
structure IntegrityCheck where
  Header : Nat
  File : Nat
deriving DecidableEq

/-- `FileStateValid = HeaderConstruction | HeaderValid | DataValid`. -/
def FileStateValid : Nat := 0x07

/-- `FileHeader` represents an EFI File header (`Type` is `Type'` because
`Type` is reserved in Lean).  The GUID is its 16 serialised bytes. -/
structure FileHeader where
  GUID : List Nat
  Checksum : IntegrityCheck
  Type' : Nat
  Attributes : Nat
  Size : ThreeUint8
  State : Nat
deriving DecidableEq

/-- `fileAttr.IsLarge`: checks if the large file attribute is set. -/
def IsLarge (a : Nat) : Bool := a &&& 0x01 != 0

/-- `fileAttr.setLarge`: sets or clears the large file attribute. -/
def setLarge (a : Nat) (large : Bool) : Nat :=
  if large then a ||| 0x01 else a &&& 0xFE

/-- `fileAttr.HasChecksum`: checks if we need to checksum the file body. -/
def HasChecksum (a : Nat) : Bool := a &&& 0x40 != 0

/-- `fileAlignments`: the alignment lookup table. -/
def fileAlignments : List Nat :=
  [1, 16, 128, 512, 1024, 4 * 1024, 32 * 1024, 64 * 1024, 128 * 1024,
   256 * 1024, 512 * 1024, 1024 * 1024, 2 * 1024 * 1024, 4 * 1024 * 1024,
   8 * 1024 * 1024, 16 * 1024 * 1024]

/-- The 4-bit alignment index `fileAttr.GetAlignment` computes before its
table lookup: `alignVal := (a & 0x38) >> 3; alignVal |= (a & 0x02) << 2`. -/
def alignIndex (a : Nat) : Nat :=
  ((a &&& 0x38) >>> 3) ||| ((a &&& 0x02) <<< 2)

/-- `fileAttr.GetAlignment` returns the byte alignment specified by the file
header (`fileAlignments[alignVal]`; in Go an out-of-range index would
panic, `getD` stands for the in-bounds access proved in `getAlignment_total`). -/
def GetAlignment (a : Nat) : Nat := fileAlignments.getD (alignIndex a) 0

/-- `FileHeaderExtended`: `FileHeader` plus the 8-byte `ExtendedSize`, the
in-memory canonical header for all files. -/
structure FileHeaderExtended extends FileHeader where
  ExtendedSize : Nat
deriving DecidableEq

/-- `File` represents an EFI File: the canonical header, the raw backing
buffer (header + body), and the offset of the body in that buffer.
The `Sections`/`NVarStore`/`Type`-string/`ExtractPath` fields are omitted:
no operation modelled here reads them, and none of them feeds back into the
header or the buffer. -/
structure File where
  Header : FileHeaderExtended
  buf : List Nat
  DataOffset : Nat
deriving DecidableEq

/-- `FileHeader.SetState` sets file state respecting erase polarity:
`fh.State = s ^ Attributes.ErasePolarity`.  The ambient `Attributes`
global of the `uefi` package is not under the given files, so the erase
polarity byte is passed explicitly, as the spec's §5 allows. -/
def SetState (erasePolarity : Nat) (fh : FileHeaderExtended) (s : Nat) :
    FileHeaderExtended :=
  { fh with State := (s % 256) ^^^ (erasePolarity % 256) }

/-- `File.HeaderLen`: 32 when the large attribute is set, else 24. -/
def HeaderLen (f : File) : Nat :=
  if IsLarge f.Header.Attributes then 0x20 else 0x18

/-- Little-endian serialisation of a `uint64`, as `binary.Write` emits it. -/
def le64 (n : Nat) : List Nat :=
  [n % 256, n / 256 % 256, n / 65536 % 256, n / 16777216 % 256,
   n / 4294967296 % 256, n / 1099511627776 % 256,
   n / 281474976710656 % 256, n / 72057594037927936 % 256]

/-- Little-endian decoding of 8 bytes into a `uint64`, as `binary.Read`
fills an `uint64` field. -/
def readLE64 (bs : List Nat) : Nat :=
  byteAt bs 0 + 256 * byteAt bs 1 + 65536 * byteAt bs 2 +
    16777216 * byteAt bs 3 + 4294967296 * byteAt bs 4 +
    1099511627776 * byteAt bs 5 + 281474976710656 * byteAt bs 6 +
    72057594037927936 * byteAt bs 7

/-- `binary.Write(w, binary.LittleEndian, fh)` for a `FileHeader`: 16 GUID
bytes, header checksum, file checksum, type, attributes, the 3 size bytes,
state — 24 bytes.  Fields hold byte values (`uint8` in Go); the embedding
stores them as `Nat` and every operation that assigns one reduces mod 256. -/
def serFileHeader (fh : FileHeader) : List Nat :=
  fh.GUID ++ [fh.Checksum.Header, fh.Checksum.File, fh.Type', fh.Attributes,
    fh.Size.b0, fh.Size.b1, fh.Size.b2, fh.State]

/-- `binary.Write(w, binary.LittleEndian, fh)` for a `FileHeaderExtended`:
the 24 standard bytes followed by the 8-byte little-endian extended size. -/
def serFileHeaderExtended (fh : FileHeaderExtended) : List Nat :=
  serFileHeader fh.toFileHeader ++ le64 (fh.ExtendedSize % 18446744073709551616)

/-- `File.ChecksumHeader`: sum of the first `headerSize` bytes of `f.buf`
minus `Checksum.File` and `State` (wrap-around `uint8` arithmetic). -/
def ChecksumHeader (f : File) : Nat :=
  let headerSize := if IsLarge f.Header.Attributes then 0x20 else 0x18
  sub8 (sub8 (Checksum8 (f.buf.take headerSize)) f.Header.Checksum.File)
    f.Header.State

/-- `File.ChecksumAndAssemble(fileData)`: serialise the extended header into
the buffer, patch `Checksum.Header` so the header sums to zero, set
`Checksum.File` (`0xAA`, or `0 - Checksum8(fileData)` when the body-checksum
attribute is set), re-serialise the header in the shape the large flag
dictates and append the body.  `binary.Write` into a `bytes.Buffer` cannot
fail for these fixed-layout structs, so the Go error paths are dead and the
model is total. -/
def ChecksumAndAssemble (f : File) (fileData : List Nat) : File :=
  let fh := f.Header
  let f1 : File := { f with buf := serFileHeaderExtended fh }
  let ckH := sub8 fh.Checksum.Header (ChecksumHeader f1)
  let ckF := if HasChecksum fh.Attributes then sub8 0 (Checksum8 fileData)
             else 0xAA
  let fh2 : FileHeaderExtended := { fh with Checksum := ⟨ckH, ckF⟩ }
  let hdr := if IsLarge fh2.Attributes then serFileHeaderExtended fh2
             else serFileHeader fh2.toFileHeader
  { f with Header := fh2, buf := hdr ++ fileData }

/-- `File.SetSize(size, resizeFile)`: assign `ExtendedSize`, clear the large
flag, and when the size exceeds the 3-byte field set the large flag (growing
the file by the 8 extra extended-header bytes when `resizeFile`); derive the
3-byte `Size` with saturation.  `size` is a `uint64`, so assignments reduce
mod `2 ^ 64`. -/
def SetSize (f : File) (size : Nat) (resizeFile : Bool) : File :=
  let fh := f.Header
  let fh := { fh with ExtendedSize := size % 18446744073709551616,
                      Attributes := setLarge fh.Attributes false }
  let fh :=
    if 0xFFFFFF < fh.ExtendedSize then
      let fh := if resizeFile then
          { fh with ExtendedSize := (fh.ExtendedSize + (0x20 - 0x18)) % 18446744073709551616 }
        else fh
      { fh with Attributes := setLarge fh.Attributes true }
    else fh
  { f with Header := { fh with Size := Write3Size fh.ExtendedSize } }

/-- The error cases of `CreatePadFile`. -/
inductive PadFileError where
  | sizeTooSmall (minSize requested : Nat)
  | badErasePolarity (p : Nat)
deriving DecidableEq

/-- `CreatePadFile(size)`: reject sizes below the 24-byte minimum header,
pick the all-ones GUID (the `ErasePolarity == 0xFF || true` condition in the
source makes the polarity-driven branches dead), zero the attributes, set
size and pad type, fill the body with the erase-polarity byte, set the valid
state and assemble.  The erase polarity is the ambient `Attributes`
global, passed explicitly here. -/
def CreatePadFile (erasePolarity : Nat) (size : Nat) : Except PadFileError File :=
  if size < 0x18 then .error (.sizeTooSmall 0x18 size)
  else
    match (if erasePolarity = 0xFF ∨ True then
             some (List.replicate 16 0xFF)
           else if erasePolarity = 0 then some (List.replicate 16 0)
           else none) with
    | none => .error (.badErasePolarity erasePolarity)
    | some g =>
      let f0 : File :=
        { Header := { GUID := g, Checksum := ⟨0, 0⟩, Type' := 0,
                      Attributes := 0, Size := ⟨0, 0, 0⟩, State := 0,
                      ExtendedSize := 0 },
          buf := [], DataOffset := 0 }
      let f1 := SetSize f0 size false
      let f2 : File := { f1 with Header := { f1.Header with Type' := 0xF0 } }
      let dataLen := if IsLarge f2.Header.Attributes then size - 0x20
                     else size - 0x18
      let fileData := List.replicate dataLen (erasePolarity % 256)
      let f3 : File := { f2 with Header := SetState erasePolarity f2.Header FileStateValid }
      .ok (ChecksumAndAssemble f3 fileData)

/-- The error cases of `NewFile`: `binary.Read` failing on a window shorter
than the standard (24-byte) or extended (32-byte) header, the size-overflow
check, and the two section-walk failures (a delegated decode error wrapped
with the file's GUID, and a section of extended size zero). -/
inductive FileParseError where
  | truncatedHeader
  | truncatedExtSize
  | sizeOverflow (g : List Nat) (extSize buflen : Nat)
  | sectionError (g : List Nat)
  | invalidSection (g : List Nat)
deriving DecidableEq

/-- Modelled from the spec: the delegated section decoder,
"`(bytes, index) → Section` producing at minimum an extended size"
(`NewSection` lives in `pkg/uefi/section.go`, which is not among the given
files).  `NewFile` is parameterised over it and the theorems quantify over
every decoder. -/
structure SectionRec where
  ExtendedSize : Nat
deriving DecidableEq

/-- Modelled from the spec: `Align4(x)` (`pkg/uefi/utils.go`, not among the
given files) — "Returns the smallest multiple of 4 ≥ x." -/
def Align4 (x : Nat) : Nat := (x + 3) / 4 * 4

theorem le_align4 (x : Nat) : x ≤ Align4 x := by
  unfold Align4
  omega

/-- `SupportedFiles`: the file types whose bodies are parsed as section
streams.  In the source this is a map; a type absent from it looks up as
`false`, `FVFileTypeRaw` (1) is present with value `false`, and
`FVFileTypePEIM` (6) is commented out by design. -/
def SupportedFiles (t : Nat) : Bool :=
  [2, 3, 4, 5, 7, 8, 9, 10, 11, 12, 13, 14, 15].contains t

/-- The section walk of `NewFile` (its `for` loop): starting at
`DataOffset`, delegate each section to the decoder, fail on a decode error
(wrapped with the file's GUID `g`) or a zero extended size, else advance by
the section's extended size rounded up to 4 bytes, until `offset` reaches
`extSize`.  Offsets are `Nat`: the `uint64` additions cannot wrap for any
window that fits in memory. -/
def sectionWalk (newSection : List Nat → Nat → Except Unit SectionRec)
    (g fbuf : List Nat) (extSize : Nat) (offset i : Nat)
    (acc : List SectionRec) : Except FileParseError (List SectionRec) :=
  if h : offset < extSize then
    match newSection (fbuf.drop offset) i with
    | .error _ => .error (.sectionError g)
    | .ok s =>
      if hz : s.ExtendedSize = 0 then .error (.invalidSection g)
      else
        sectionWalk newSection g fbuf extSize (Align4 (offset + s.ExtendedSize))
          (i + 1) (acc ++ [s])
  else .ok acc
termination_by extSize - offset
decreasing_by
  have hal := le_align4 (offset + s.ExtendedSize)
  omega

/-- The tail of `NewFile` after the buffer is bound: return the file as
opaque when its type is not in the decomposable set, else run the section
walk.  The decoded sections would populate the `Sections` field omitted
from `File`; the walk never touches the header, the buffer or the data
offset, so on success the returned file is `f` itself. -/
def newFileTail (newSection : List Nat → Nat → Except Unit SectionRec)
    (f : File) : Except FileParseError (Option File) :=
  if SupportedFiles f.Header.Type' then
    match sectionWalk newSection f.Header.GUID f.buf f.Header.ExtendedSize
        f.DataOffset 0 [] with
    | .error e => .error e
    | .ok _ => .ok (some f)
  else .ok (some f)

/-- `NewFile(buf)`: decode the standard 24-byte header; on the
`{0xFF,0xFF,0xFF}` size sentinel consume the 8-byte extended size and
return the free-space signal (`Except.ok none`) when it is all-ones,
else widen the 3-byte size; fail when `ExtendedSize` exceeds the window;
bind the buffer (`ReadOnly` only chooses borrow vs copy — same bytes), set
`DataOffset`, and finish with `newFileTail` (the section walk).
The NVAR-store special case is omitted: it only fills the omitted
`NVarStore` field and demotes its errors to a log line, so it affects
neither the result value nor the error behaviour modelled here. -/
def NewFile (newSection : List Nat → Nat → Except Unit SectionRec)
    (buf : List Nat) : Except FileParseError (Option File) :=
  if buf.length < 0x18 then .error .truncatedHeader
  else
    let fh : FileHeader :=
      { GUID := buf.take 16,
        Checksum := ⟨byteAt buf 16, byteAt buf 17⟩,
        Type' := byteAt buf 18,
        Attributes := byteAt buf 19,
        Size := ⟨byteAt buf 20, byteAt buf 21, byteAt buf 22⟩,
        State := byteAt buf 23 }
    if fh.Size = ⟨0xFF, 0xFF, 0xFF⟩ then
      if buf.length < 0x20 then .error .truncatedExtSize
      else
        let ext := readLE64 ((buf.drop 24).take 8)
        if ext = 0xFFFFFFFFFFFFFFFF then .ok none
        else if buf.length < ext then .error (.sizeOverflow fh.GUID ext buf.length)
        else newFileTail newSection
          { Header := { toFileHeader := fh, ExtendedSize := ext },
            buf := buf.take ext, DataOffset := 0x20 }
    else
      let ext := Read3Size fh.Size
      if buf.length < ext then .error (.sizeOverflow fh.GUID ext buf.length)
      else newFileTail newSection
        { Header := { toFileHeader := fh, ExtendedSize := ext },
          buf := buf.take ext, DataOffset := 0x18 }

theorem newFileTail_ok {ns : List Nat → Nat → Except Unit SectionRec}
    {f g : File} (h : newFileTail ns f = .ok (some g)) : g = f := by
  unfold newFileTail at h
  split at h
  · split at h
    · cases h
    · cases h
      rfl
  · cases h
    rfl

theorem newFileTail_ne_none (ns : List Nat → Nat → Except Unit SectionRec)
    (f : File) : newFileTail ns f ≠ .ok none := by
  unfold newFileTail
  split
  · split <;> simp
  · simp

theorem newFileTail_unsupported {ns : List Nat → Nat → Except Unit SectionRec}
    {f : File} (h : SupportedFiles f.Header.Type' = false) :
    newFileTail ns f = .ok (some f) := by
  unfold newFileTail
  rw [h]
  rfl

/-! ## CBFS payload records (`pkg/cbfs/payload.go`) -/

/-- Modelled from the spec: the `SegEntry` terminal segment-type code is
declared in `pkg/cbfs/cbfs.go` (not among the given files); its concrete
value ("ENTR" from the coreboot SELF format) is irrelevant to the properties
proved, which only compare against it. -/
def SegEntry : Nat := 0x52544E45

/-- Modelled from the spec: `PayloadHeader` (declared in `pkg/cbfs/cbfs.go`,
not among the given files) — "a big-endian descriptor with fields: segment
type code, compression code, file offset, load-address, compressed size,
memory size" (widths 4, 4, 4, 8, 4, 4 bytes, the coreboot SELF segment
layout). -/
structure PayloadHeader where
  Type' : Nat
  Compression : Nat
  Offset : Nat
  LoadAddress : Nat
  Size : Nat
  MemSize : Nat
deriving DecidableEq

/-- An `io.ReadSeeker` over in-memory bytes (a `bytes.Reader`): the data and
the current position. -/
structure ByteStream where
  data : List Nat
  pos : Nat
deriving DecidableEq

/-- Big-endian decoding of 4 bytes of `bs` starting at `i`. -/
def readBE32 (bs : List Nat) (i : Nat) : Nat :=
  ((byteAt bs i * 256 + byteAt bs (i + 1)) * 256 + byteAt bs (i + 2)) * 256 +
    byteAt bs (i + 3)

/-- Big-endian decoding of 8 bytes of `bs` starting at `i`. -/
def readBE64 (bs : List Nat) (i : Nat) : Nat :=
  readBE32 bs i * 4294967296 + readBE32 bs (i + 4)

/-- Modelled from the spec: `Read(in, &h)` for one `PayloadHeader` — the
cbfs package's big-endian `binary.Read` wrapper (`pkg/cbfs/io.go`, not among
the given files).  Consumes 28 bytes; fails (`none`) when fewer remain. -/
def readPayloadHeader (s : ByteStream) : Option (PayloadHeader × ByteStream) :=
  if s.pos + 28 ≤ s.data.length then
    some ({ Type' := readBE32 s.data s.pos,
            Compression := readBE32 s.data (s.pos + 4),
            Offset := readBE32 s.data (s.pos + 8),
            LoadAddress := readBE64 s.data (s.pos + 12),
            Size := readBE32 s.data (s.pos + 20),
            MemSize := readBE32 s.data (s.pos + 24) },
          { s with pos := s.pos + 28 })
  else none

theorem readPayloadHeader_some {s : ByteStream} {ph : PayloadHeader} {s' : ByteStream}
    (h : readPayloadHeader s = some (ph, s')) :
    s'.data = s.data ∧ s'.pos = s.pos + 28 ∧ s.pos + 28 ≤ s.data.length := by
  unfold readPayloadHeader at h
  split at h
  · cases h
    exact ⟨rfl, rfl, by assumption⟩
  · cases h

/-- The `for` loop of `PayloadRecord.Read`: read `PayloadHeader`s, appending
each to the segment list, until one of type `SegEntry`; a read error
propagates (`none`). -/
def readSegs (s : ByteStream) (acc : List PayloadHeader) :
    Option (List PayloadHeader × ByteStream) :=
  match h : readPayloadHeader s with
  | none => none
  | some (ph, s') =>
    if ph.Type' = SegEntry then some (acc ++ [ph], s')
    else readSegs s' (acc ++ [ph])
termination_by s.data.length - s.pos
decreasing_by
  obtain ⟨hd, hp, hle⟩ := readPayloadHeader_some h
  simp only [hd, hp]
  omega

/-- The result of a successful `PayloadRecord.Read` on a fresh record
(`NewPayloadRecord` starts with empty `Segs` and `FData`): the segment list
and the body.  `Size` is the embedded CBFS `File`'s size field (`p.Size`);
the rest of the embedded `File` plays no part in `Read`. -/
structure PayloadRecord where
  Size : Nat
  Segs : List PayloadHeader
  FData : List Nat
deriving DecidableEq

/-- `PayloadRecord.Read(in)` for a record whose CBFS file size is `pSize`,
on a fresh record: read segments until `SegEntry`, then
`bodySize := int64(p.Size) - offset`; negative or zero body sizes are
tolerated with an empty body; otherwise allocate `bodySize` zero bytes and
perform one `in.Read` into them — it copies `min(bodySize, avail)` bytes and
returns `io.EOF` (propagated, `none`) only when nothing is available. -/
def payloadRecordRead (pSize : Nat) (s : ByteStream) : Option PayloadRecord :=
  match readSegs s [] with
  | none => none
  | some (segs, s') =>
    let bodySize : Int := (pSize : Int) - (s'.pos : Int)
    if bodySize < 0 then some ⟨pSize, segs, []⟩
    else if bodySize = 0 then some ⟨pSize, segs, []⟩
    else
      let avail := s'.data.length - s'.pos
      if avail = 0 then none
      else some ⟨pSize, segs,
        (s'.data.drop s'.pos).take bodySize.toNat ++
          List.replicate (bodySize.toNat - avail) 0⟩

/-! ## Helper lemmas -/

theorem sub8_lt (a b : Nat) : sub8 a b < 256 := by
  unfold sub8; omega

theorem sub8_zero (a : Nat) (h : a < 256) : sub8 a 0 = a := by
  unfold sub8; omega

theorem isLarge_setLarge_true (a : Nat) : IsLarge (setLarge a true) = true := by
  have h2 : a &&& 1 = 0 ∨ a &&& 1 = 1 := by rw [Nat.and_one_is_mod]; omega
  rcases h2 with h2 | h2 <;>
    simp [IsLarge, setLarge, Nat.and_distrib_right, h2]

theorem isLarge_setLarge_false (a : Nat) : IsLarge (setLarge a false) = false := by
  simp [IsLarge, setLarge, Nat.and_assoc]

theorem read3_write3 (e : Nat) : Read3Size (Write3Size e) = min e 0xFFFFFF := by
  unfold Write3Size
  split
  · simp only [Read3Size]; omega
  · simp only [Read3Size]; omega

theorem setSize_ext_eq (f : File) (size : Nat) (r : Bool) :
    (SetSize f size r).Header.ExtendedSize =
      if 0xFFFFFF < size % 18446744073709551616 then
        (if r then (size % 18446744073709551616 + 8) % 18446744073709551616
         else size % 18446744073709551616)
      else size % 18446744073709551616 := by
  simp only [SetSize]
  split
  · split <;> rfl
  · rfl

theorem setSize_attr_eq (f : File) (size : Nat) (r : Bool) :
    (SetSize f size r).Header.Attributes =
      if 0xFFFFFF < size % 18446744073709551616 then
        setLarge (setLarge f.Header.Attributes false) true
      else setLarge f.Header.Attributes false := by
  simp only [SetSize]
  split
  · split <;> rfl
  · rfl

theorem setSize_size_eq (f : File) (size : Nat) (r : Bool) :
    (SetSize f size r).Header.Size =
      Write3Size (SetSize f size r).Header.ExtendedSize := by
  simp only [SetSize]

/-! ## The claims -/

set_option maxRecDepth 8192 in
/-- C10: For every 8-bit attribute value, the 4-bit alignment index
`GetAlignment` computes (bits 3–5 of the attribute as the low bits of the
index, bit 1 of the attribute as bit 3 of the index) is at most 15, so its
lookup into the 16-entry alignment table is always in bounds and
`GetAlignment` is total, returning one of the sixteen table values. -/
theorem getAlignment_total :
    ∀ a : Fin 256, alignIndex a.val ≤ 15 ∧
      alignIndex a.val < fileAlignments.length ∧
      GetAlignment a.val = fileAlignments.getD (alignIndex a.val) 0 ∧
      GetAlignment a.val ∈ fileAlignments := by decide

/-- C4: `SetSize(size, resize)` assigns `ExtendedSize = size` and clears the
large attribute bit; then, if `size > 0xFFFFFF`, it sets the large bit and,
when `resize` is true, additionally grows `ExtendedSize` by 8 (`uint64`
arithmetic, i.e. mod `2 ^ 64`); finally the 3-byte `Size` field is set to
`min(ExtendedSize, 0xFFFFFF)`.  In particular `SetSize(0x1000000, true)`
yields `ExtendedSize = 0x1000008`, `Size = {0xFF,0xFF,0xFF}`, the large bit
set, and `HeaderLen = 32`. -/
theorem setSize_spec (f : File) (size : Nat) (resize : Bool)
    (hsz : size < 18446744073709551616) :
    ((SetSize f size resize).Header.ExtendedSize =
      if 0xFFFFFF < size then
        (if resize then (size + 8) % 18446744073709551616 else size)
      else size)
    ∧ IsLarge (SetSize f size resize).Header.Attributes = decide (0xFFFFFF < size)
    ∧ (SetSize f size resize).Header.Size =
        Write3Size (SetSize f size resize).Header.ExtendedSize
    ∧ Read3Size (SetSize f size resize).Header.Size =
        min (SetSize f size resize).Header.ExtendedSize 0xFFFFFF
    ∧ (SetSize f 0x1000000 true).Header.ExtendedSize = 0x1000008
    ∧ (SetSize f 0x1000000 true).Header.Size = ⟨0xFF, 0xFF, 0xFF⟩
    ∧ IsLarge (SetSize f 0x1000000 true).Header.Attributes = true
    ∧ HeaderLen (SetSize f 0x1000000 true) = 32 := by
  have hmod : size % 18446744073709551616 = size := Nat.mod_eq_of_lt hsz
  refine ⟨?_, ?_, setSize_size_eq f size resize, ?_, ?_, ?_, ?_, ?_⟩
  · rw [setSize_ext_eq, hmod]
  · rw [setSize_attr_eq, hmod]
    by_cases h : 0xFFFFFF < size
    · simp [h, isLarge_setLarge_true]
    · simp [h, isLarge_setLarge_false]
  · rw [setSize_size_eq, read3_write3]
  · rw [setSize_ext_eq]; norm_num
  · rw [setSize_size_eq, setSize_ext_eq]; norm_num [Write3Size]
  · rw [setSize_attr_eq]; norm_num [isLarge_setLarge_true]
  · unfold HeaderLen
    rw [setSize_attr_eq]; norm_num [isLarge_setLarge_true]

theorem setSize_spec_witness :
    ((SetSize ⟨⟨⟨List.replicate 16 0, ⟨0, 0⟩, 0, 0, ⟨0, 0, 0⟩, 0⟩, 0⟩, [], 0⟩
        0x1000000 true).Header.ExtendedSize =
      if 0xFFFFFF < 0x1000000 then
        (if true then (0x1000000 + 8) % 18446744073709551616 else 0x1000000)
      else 0x1000000)
    ∧ IsLarge (SetSize ⟨⟨⟨List.replicate 16 0, ⟨0, 0⟩, 0, 0, ⟨0, 0, 0⟩, 0⟩, 0⟩, [], 0⟩
        0x1000000 true).Header.Attributes = decide (0xFFFFFF < 0x1000000)
    ∧ (SetSize ⟨⟨⟨List.replicate 16 0, ⟨0, 0⟩, 0, 0, ⟨0, 0, 0⟩, 0⟩, 0⟩, [], 0⟩
        0x1000000 true).Header.Size =
        Write3Size (SetSize ⟨⟨⟨List.replicate 16 0, ⟨0, 0⟩, 0, 0, ⟨0, 0, 0⟩, 0⟩, 0⟩, [], 0⟩
          0x1000000 true).Header.ExtendedSize
    ∧ Read3Size (SetSize ⟨⟨⟨List.replicate 16 0, ⟨0, 0⟩, 0, 0, ⟨0, 0, 0⟩, 0⟩, 0⟩, [], 0⟩
        0x1000000 true).Header.Size =
        min (SetSize ⟨⟨⟨List.replicate 16 0, ⟨0, 0⟩, 0, 0, ⟨0, 0, 0⟩, 0⟩, 0⟩, [], 0⟩
          0x1000000 true).Header.ExtendedSize 0xFFFFFF
    ∧ (SetSize ⟨⟨⟨List.replicate 16 0, ⟨0, 0⟩, 0, 0, ⟨0, 0, 0⟩, 0⟩, 0⟩, [], 0⟩
        0x1000000 true).Header.ExtendedSize = 0x1000008
    ∧ (SetSize ⟨⟨⟨List.replicate 16 0, ⟨0, 0⟩, 0, 0, ⟨0, 0, 0⟩, 0⟩, 0⟩, [], 0⟩
        0x1000000 true).Header.Size = ⟨0xFF, 0xFF, 0xFF⟩
    ∧ IsLarge (SetSize ⟨⟨⟨List.replicate 16 0, ⟨0, 0⟩, 0, 0, ⟨0, 0, 0⟩, 0⟩, 0⟩, [], 0⟩
        0x1000000 true).Header.Attributes = true
    ∧ HeaderLen (SetSize ⟨⟨⟨List.replicate 16 0, ⟨0, 0⟩, 0, 0, ⟨0, 0, 0⟩, 0⟩, 0⟩, [], 0⟩
        0x1000000 true) = 32 :=
  setSize_spec ⟨⟨⟨List.replicate 16 0, ⟨0, 0⟩, 0, 0, ⟨0, 0, 0⟩, 0⟩, 0⟩, [], 0⟩
    0x1000000 true (by norm_num)

set_option maxRecDepth 8192 in
/-- C5: `CreatePadFile(size)` fails for every `size` below 24;
`CreatePadFile(24)` succeeds and, under erase polarity `0xFF`, yields a
24-byte buffer (zero-byte body) whose GUID is all-ones, type is `0xF0`,
attributes are `0x00`, `Size` field is `{0x18,0x00,0x00}`, `State XOR 0xFF`
equals `FileStateValid`, the header sums to zero excluding `State` and
`Checksum.File`, and `Checksum.File = 0xAA`. -/
theorem createPadFile_spec :
    (∀ s, s < 24 → CreatePadFile 0xFF s = .error (.sizeTooSmall 24 s))
    ∧ (CreatePadFile 0xFF 24).map (fun f => f.buf.length) = .ok 24
    ∧ (CreatePadFile 0xFF 24).map (fun f => f.Header.GUID) =
        .ok (List.replicate 16 0xFF)
    ∧ (CreatePadFile 0xFF 24).map (fun f => f.Header.Type') = .ok 0xF0
    ∧ (CreatePadFile 0xFF 24).map (fun f => f.Header.Attributes) = .ok 0
    ∧ (CreatePadFile 0xFF 24).map (fun f => f.Header.Size) = .ok ⟨0x18, 0, 0⟩
    ∧ (CreatePadFile 0xFF 24).map (fun f => f.Header.State ^^^ 0xFF) =
        .ok FileStateValid
    ∧ (CreatePadFile 0xFF 24).map (fun f =>
        sub8 (sub8 (Checksum8 (f.buf.take (HeaderLen f)))
          f.Header.Checksum.File) f.Header.State) = .ok 0
    ∧ (CreatePadFile 0xFF 24).map (fun f => f.Header.Checksum.File) = .ok 0xAA :=
  ⟨by decide, by decide, by decide, by decide, by decide, by decide, by decide,
   by decide, by decide⟩

/-- C6: `NewFile` returns the free-space signal — no file and no error
(`Except.ok none`, distinct by constructor from every `Except.error`) —
exactly when the decoded 3-byte size field equals `{0xFF,0xFF,0xFF}` and the
8-byte extended size read immediately after equals `0xFFFFFFFFFFFFFFFF`
(the window being long enough to decode both). -/
theorem newFile_free_space_iff (ns : List Nat → Nat → Except Unit SectionRec)
    (buf : List Nat) :
    NewFile ns buf = .ok none ↔
      (0x18 ≤ buf.length ∧
       (⟨byteAt buf 20, byteAt buf 21, byteAt buf 22⟩ : ThreeUint8) =
         ⟨0xFF, 0xFF, 0xFF⟩ ∧
       0x20 ≤ buf.length ∧
       readLE64 ((buf.drop 24).take 8) = 0xFFFFFFFFFFFFFFFF) := by
  have hnn := newFileTail_ne_none ns
  simp only [NewFile]
  split_ifs with h1 h2 h3 h4 h5 <;> simp_all

/-- The `ExtendedSize` the parser decodes from a window: the 8 bytes after
the standard header on the `{0xFF,0xFF,0xFF}` size sentinel, else the
widened 3-byte size. -/
def decodedExtSize (buf : List Nat) : Nat :=
  if (⟨byteAt buf 20, byteAt buf 21, byteAt buf 22⟩ : ThreeUint8) =
      ⟨0xFF, 0xFF, 0xFF⟩ then
    readLE64 ((buf.drop 24).take 8)
  else Read3Size ⟨byteAt buf 20, byteAt buf 21, byteAt buf 22⟩

/-- A 32-byte window that decodes as free space: size sentinel
`{0xFF,0xFF,0xFF}` and all-ones extended size. -/
def freeSpaceWindow : List Nat :=
  List.replicate 20 0 ++ [0xFF, 0xFF, 0xFF, 0] ++ List.replicate 8 0xFF

/-- A stub section decoder for the concrete windows of witnesses and
counterexamples; none of those windows ever reaches the section walk. -/
def stubSection : List Nat → Nat → Except Unit SectionRec := fun _ _ => .ok ⟨4⟩

/-- C7 counterexample: a window whose decoded `ExtendedSize`
(`0xFFFFFFFFFFFFFFFF`) exceeds the window length (32), on which `NewFile`
returns the free-space signal rather than any error. -/
theorem newFile_overflow_cex :
    freeSpaceWindow.length < decodedExtSize freeSpaceWindow ∧
      NewFile stubSection freeSpaceWindow = .ok none ∧
      ∀ e : FileParseError, NewFile stubSection freeSpaceWindow ≠ .error e := by
  refine ⟨by decide, by decide, fun e => ?_⟩
  intro hcontra
  rw [show NewFile stubSection freeSpaceWindow = .ok none from by decide] at hcontra
  cases hcontra

/-- C7 (amended: the free-space sentinel excluded): for every input window
whose decoded `ExtendedSize` exceeds the window length — the window long
enough to decode it, and the extended size not the all-ones free-space
sentinel — `NewFile` returns no file and fails with an error that names the
offending file's GUID. -/
theorem newFile_size_overflow (ns : List Nat → Nat → Except Unit SectionRec)
    (buf : List Nat)
    (h24 : 0x18 ≤ buf.length)
    (hext : (⟨byteAt buf 20, byteAt buf 21, byteAt buf 22⟩ : ThreeUint8) =
        ⟨0xFF, 0xFF, 0xFF⟩ →
      0x20 ≤ buf.length ∧
        readLE64 ((buf.drop 24).take 8) ≠ 0xFFFFFFFFFFFFFFFF)
    (hover : buf.length < decodedExtSize buf) :
    NewFile ns buf =
      .error (.sizeOverflow (buf.take 16) (decodedExtSize buf) buf.length) := by
  simp only [NewFile, decodedExtSize] at *
  split_ifs at hover ⊢ with h1 h2 h3 h4 h5 <;> simp_all <;> omega

/-- A 24-byte window whose 3-byte size decodes to 25, one more than the
window holds. -/
def overflowWindow : List Nat := List.replicate 20 0 ++ [25, 0, 0, 0]

theorem newFile_size_overflow_witness :
    NewFile stubSection overflowWindow =
      .error (.sizeOverflow (overflowWindow.take 16)
        (decodedExtSize overflowWindow) overflowWindow.length) :=
  newFile_size_overflow stubSection overflowWindow (by decide) (by decide)
    (by decide)

theorem readSegs_entry {s s' : ByteStream} {ph : PayloadHeader}
    (acc : List PayloadHeader)
    (h : readPayloadHeader s = some (ph, s')) (ht : ph.Type' = SegEntry) :
    readSegs s acc = some (acc ++ [ph], s') := by
  unfold readSegs
  split
  · next heq => rw [h] at heq; cases heq
  · next ph2 s2 heq =>
    rw [h] at heq
    cases heq
    simp [ht]

theorem readSegs_cont {s s' : ByteStream} {ph : PayloadHeader}
    (acc : List PayloadHeader)
    (h : readPayloadHeader s = some (ph, s')) (ht : ph.Type' ≠ SegEntry) :
    readSegs s acc = readSegs s' (acc ++ [ph]) := by
  unfold readSegs
  split
  · next heq => rw [h] at heq; cases heq
  · next ph2 s2 heq =>
    rw [h] at heq
    cases heq
    simp only [ht, if_false, ite_false]
    exact readSegs.eq_def s' (acc ++ [ph])

theorem readSegs_none {s : ByteStream}
    (acc : List PayloadHeader) (h : readPayloadHeader s = none) :
    readSegs s acc = none := by
  unfold readSegs
  split
  · rfl
  · next ph2 s2 heq => rw [h] at heq; cases heq

theorem readSegs_last (s : ByteStream) (acc : List PayloadHeader) :
    ∀ segs s', readSegs s acc = some (segs, s') →
      ∃ ph, segs.getLast? = some ph ∧ ph.Type' = SegEntry := by
  induction s, acc using readSegs.induct with
  | case1 s acc hnone =>
    intro segs s' h
    rw [readSegs_none acc hnone] at h
    cases h
  | case2 s acc ph s2 hsome ht =>
    intro segs s' h
    rw [readSegs_entry acc hsome ht] at h
    cases h
    exact ⟨ph, by simp, ht⟩
  | case3 s acc ph s2 hsome ht ih =>
    intro segs s' h
    rw [readSegs_cont acc hsome ht] at h
    exact ih segs s' h

/-- C8: every `PayloadRecord` whose `Read` completes without error has a
non-empty segment list whose last element has type `SegEntry`. -/
theorem payload_record_segs (pSize : Nat) (s : ByteStream) (p : PayloadRecord)
    (h : payloadRecordRead pSize s = some p) :
    p.Segs ≠ [] ∧ ∃ ph, p.Segs.getLast? = some ph ∧ ph.Type' = SegEntry := by
  unfold payloadRecordRead at h
  cases hseg : readSegs s [] with
  | none => rw [hseg] at h; cases h
  | some v =>
    obtain ⟨segs, s'⟩ := v
    rw [hseg] at h
    obtain ⟨ph, hl, ht⟩ := readSegs_last s [] segs s' hseg
    have hne : segs ≠ [] := by
      intro hz
      rw [hz] at hl
      cases hl
    simp only at h
    split_ifs at h <;> cases h <;> exact ⟨hne, ph, hl, ht⟩

/-- C9 (amended: a short read keeps the allocated length, zero-filled): in
`PayloadRecord.Read`, after the `SegEntry` segment is consumed: if the
record's `Size` minus the current stream position is negative or zero, `Read`
returns success with an empty body; otherwise it allocates exactly that many
zero bytes and performs a single read — a short read is tolerated without
error, the body keeping the allocated `bodySize` length with the unread tail
zero-filled — and a read with nothing available propagates the error. -/
theorem payload_body_policy (pSize : Nat) (s : ByteStream)
    (segs : List PayloadHeader) (s' : ByteStream)
    (h : readSegs s [] = some (segs, s')) :
    ((pSize : Int) - (s'.pos : Int) ≤ 0 →
      payloadRecordRead pSize s = some ⟨pSize, segs, []⟩)
    ∧ ((0 : Int) < (pSize : Int) - (s'.pos : Int) →
        s'.data.length - s'.pos = 0 → payloadRecordRead pSize s = none)
    ∧ ((0 : Int) < (pSize : Int) - (s'.pos : Int) →
        0 < s'.data.length - s'.pos →
        payloadRecordRead pSize s = some ⟨pSize, segs,
          (s'.data.drop s'.pos).take (pSize - s'.pos) ++
            List.replicate ((pSize - s'.pos) - (s'.data.length - s'.pos)) 0⟩) := by
  unfold payloadRecordRead
  rw [h]
  simp only
  refine ⟨fun h1 => ?_, fun h1 h2 => ?_, fun h1 h2 => ?_⟩
  · by_cases hb1 : (pSize : Int) - (s'.pos : Int) < 0
    · rw [if_pos hb1]
    · rw [if_neg hb1, if_pos (by omega : (pSize : Int) - (s'.pos : Int) = 0)]
  · rw [if_neg (by omega : ¬((pSize : Int) - (s'.pos : Int) < 0)),
      if_neg (by omega : ¬((pSize : Int) - (s'.pos : Int) = 0)), if_pos h2]
  · rw [if_neg (by omega : ¬((pSize : Int) - (s'.pos : Int) < 0)),
      if_neg (by omega : ¬((pSize : Int) - (s'.pos : Int) = 0)),
      if_neg (by omega : ¬(s'.data.length - s'.pos = 0)), Int.toNat_sub]

/-- A stream holding exactly one segment descriptor of type `SegEntry`. -/
def entrStream : ByteStream := ⟨[0x52, 0x54, 0x4E, 0x45] ++ List.replicate 24 0, 0⟩

/-- `entrStream` after its 28-byte descriptor is consumed. -/
def entrStream28 : ByteStream := ⟨entrStream.data, 28⟩

theorem payload_record_segs_witness :
    (⟨28, [⟨SegEntry, 0, 0, 0, 0, 0⟩], []⟩ : PayloadRecord).Segs ≠ [] ∧
      ∃ ph, (⟨28, [⟨SegEntry, 0, 0, 0, 0, 0⟩], []⟩ : PayloadRecord).Segs.getLast? =
        some ph ∧ ph.Type' = SegEntry :=
  payload_record_segs 28 entrStream ⟨28, [⟨SegEntry, 0, 0, 0, 0, 0⟩], []⟩
    (by
      unfold payloadRecordRead
      rw [readSegs_entry []
        (show readPayloadHeader entrStream =
            some (⟨SegEntry, 0, 0, 0, 0, 0⟩, entrStream28) from by decide) rfl]
      decide)

theorem payload_body_policy_witness :
    ((28 : Int) - (entrStream28.pos : Int) ≤ 0 →
      payloadRecordRead 28 entrStream =
        some ⟨28, [⟨SegEntry, 0, 0, 0, 0, 0⟩], []⟩)
    ∧ ((0 : Int) < (28 : Int) - (entrStream28.pos : Int) →
        entrStream28.data.length - entrStream28.pos = 0 →
        payloadRecordRead 28 entrStream = none)
    ∧ ((0 : Int) < (28 : Int) - (entrStream28.pos : Int) →
        0 < entrStream28.data.length - entrStream28.pos →
        payloadRecordRead 28 entrStream =
          some ⟨28, [⟨SegEntry, 0, 0, 0, 0, 0⟩],
            (entrStream28.data.drop entrStream28.pos).take (28 - entrStream28.pos) ++
              List.replicate ((28 - entrStream28.pos) -
                (entrStream28.data.length - entrStream28.pos)) 0⟩) :=
  payload_body_policy 28 entrStream [⟨SegEntry, 0, 0, 0, 0, 0⟩] entrStream28
    (readSegs_entry []
      (show readPayloadHeader entrStream =
          some (⟨SegEntry, 0, 0, 0, 0, 0⟩, entrStream28) from by decide) rfl)

/-- One `SegEntry` descriptor followed by only 2 further bytes. -/
def shortBodyStream : ByteStream :=
  ⟨[0x52, 0x54, 0x4E, 0x45] ++ List.replicate 24 0 ++ [7, 9], 0⟩

/-- C9 counterexample: declared size 33 asks for a 5-byte body but only 2
bytes remain; `Read` succeeds and the body is the full 5 allocated bytes,
the unread tail zero-filled — not the 2 actually read. -/
theorem payload_short_read_cex :
    (payloadRecordRead 33 shortBodyStream).map (fun p => p.FData) =
      some [7, 9, 0, 0, 0] ∧
    shortBodyStream.data.length - 28 = 2 ∧ ([7, 9, 0, 0, 0] : List Nat).length ≠ 2 := by
  refine ⟨?_, by decide, by decide⟩
  unfold payloadRecordRead
  rw [readSegs_entry []
    (show readPayloadHeader shortBodyStream =
        some (⟨SegEntry, 0, 0, 0, 0, 0⟩, ⟨shortBodyStream.data, 28⟩) from by decide) rfl]
  decide

theorem serFileHeader_length (fh : FileHeader) :
    (serFileHeader fh).length = fh.GUID.length + 8 := by
  simp [serFileHeader]

theorem serFileHeaderExtended_length (fh : FileHeaderExtended) :
    (serFileHeaderExtended fh).length = fh.GUID.length + 16 := by
  simp [serFileHeaderExtended, serFileHeader, le64]

theorem cast_sub8 (a b : Nat) :
    ((sub8 a b : Nat) : ZMod 256) = (a : ZMod 256) - (b : ZMod 256) := by
  unfold sub8
  have hb : b % 256 ≤ a % 256 + 256 := by omega
  rw [ZMod.natCast_mod, Nat.cast_sub hb, Nat.cast_add, ZMod.natCast_mod,
    ZMod.natCast_mod]
  have h256 : ((256 : Nat) : ZMod 256) = 0 := ZMod.natCast_self 256
  rw [h256]
  ring

theorem cast_checksum8 (l : List Nat) :
    ((Checksum8 l : Nat) : ZMod 256) = ((l.sum : Nat) : ZMod 256) := by
  unfold Checksum8
  rw [ZMod.natCast_mod]

theorem eq_zero_of_cast (x : Nat) (hx : x < 256) (h : (x : ZMod 256) = 0) :
    x = 0 := by
  have hv := ZMod.val_cast_of_lt hx
  rw [h] at hv
  simpa using hv.symm

theorem take_append_all {l₁ l₂ : List Nat} {n : Nat} (h : l₁.length = n) :
    (l₁ ++ l₂).take n = l₁ := by
  subst h
  exact List.take_left l₁ l₂

theorem take_all_eq {l : List Nat} {n : Nat} (h : l.length = n) : l.take n = l := by
  subst h
  exact List.take_length l

/-- C2: for every file on which `ChecksumAndAssemble` succeeds (the
modelled assembly is total, and the `GUID` is 16 bytes as Go's types
guarantee), the 8-bit additive sum of the first `HeaderLen` bytes of the
resulting buffer, minus the `Checksum.File` byte and minus the `State` byte
(wrap-around byte arithmetic), is congruent to 0 modulo 256. -/
theorem assembled_header_checksum (f : File) (body : List Nat)
    (hg : f.Header.GUID.length = 16) :
    sub8 (sub8 (Checksum8 ((ChecksumAndAssemble f body).buf.take
          (HeaderLen (ChecksumAndAssemble f body))))
        (ChecksumAndAssemble f body).Header.Checksum.File)
      (ChecksumAndAssemble f body).Header.State = 0 := by
  apply eq_zero_of_cast _ (sub8_lt _ _)
  simp only [ChecksumAndAssemble, HeaderLen, ChecksumHeader]
  cases hL : IsLarge f.Header.Attributes
  · simp only [Bool.false_eq_true, if_false]
    simp only [serFileHeaderExtended]
    rw [take_append_all (show (serFileHeader f.Header.toFileHeader).length = 24 by
      rw [serFileHeader_length, hg])]
    rw [take_append_all (show (serFileHeader _).length = 24 by
      rw [serFileHeader_length]; simp [hg])]
    rw [cast_sub8, cast_sub8, cast_checksum8]
    simp only [serFileHeader, List.sum_append, List.sum_cons, List.sum_nil]
    push_cast
    simp only [cast_sub8, cast_checksum8]
    push_cast
    simp only [List.map_append, List.map_cons, List.map_nil, List.sum_append,
      List.sum_cons, List.sum_nil]
    ring
  · simp only [if_true]
    rw [take_all_eq (show (serFileHeaderExtended f.Header).length = 32 by
      rw [serFileHeaderExtended_length, hg])]
    rw [take_append_all (show (serFileHeaderExtended _).length = 32 by
      rw [serFileHeaderExtended_length]; simp [hg])]
    rw [cast_sub8, cast_sub8, cast_checksum8]
    simp only [serFileHeaderExtended, serFileHeader, List.sum_append,
      List.sum_cons, List.sum_nil]
    push_cast
    simp only [cast_sub8, cast_checksum8]
    push_cast
    simp only [List.map_append, List.map_cons, List.map_nil, List.sum_append,
      List.sum_cons, List.sum_nil]
    ring

theorem checksum8_lt (l : List Nat) : Checksum8 l < 256 := by
  unfold Checksum8
  omega

theorem drop_append_all {l₁ l₂ : List Nat} {n : Nat} (h : l₁.length = n) :
    (l₁ ++ l₂).drop n = l₂ := by
  subst h
  exact List.drop_left l₁ l₂

/-- The all-zero file with a well-typed (16-byte) GUID. -/
def zeroFile : File := ⟨⟨⟨List.replicate 16 0, ⟨0, 0⟩, 0, 0, ⟨0, 0, 0⟩, 0⟩, 0⟩, [], 0⟩

theorem assembled_header_checksum_witness :
    sub8 (sub8 (Checksum8 ((ChecksumAndAssemble zeroFile []).buf.take
          (HeaderLen (ChecksumAndAssemble zeroFile []))))
        (ChecksumAndAssemble zeroFile []).Header.Checksum.File)
      (ChecksumAndAssemble zeroFile []).Header.State = 0 :=
  assembled_header_checksum zeroFile [] (by decide)

/-- The all-zero file with the body-checksum attribute bit (0x40) set. -/
def checksummedFile : File :=
  ⟨⟨⟨List.replicate 16 0, ⟨0, 0⟩, 0, 0x40, ⟨0, 0, 0⟩, 0⟩, 0⟩, [], 0⟩

/-- C3 counterexample: assembling the body `[1]` under `HasChecksum`
succeeds, yet the 8-bit sum over the body bytes of the result is 1, not 0
(the code stores `-Checksum8(body)` in `Checksum.File` instead of forcing
the body sum to 0). -/
theorem assembled_body_checksum_cex :
    HasChecksum (ChecksumAndAssemble checksummedFile [1]).Header.Attributes = true ∧
    Checksum8 ((ChecksumAndAssemble checksummedFile [1]).buf.drop
      (HeaderLen (ChecksumAndAssemble checksummedFile [1]))) ≠ 0 :=
  ⟨by decide, by decide⟩

/-- C3 (amended: the stored file checksum is the negated body sum): for
every file on which `ChecksumAndAssemble(body)` succeeds, if the
`HasChecksum` attribute bit is set then `Checksum.File + Checksum8(body)`
is congruent to 0 modulo 256 over the body bytes of the result (the body sum
itself need not be 0); if the bit is unset then `Checksum.File = 0xAA`. -/
theorem assembled_body_checksum (f : File) (body : List Nat)
    (hg : f.Header.GUID.length = 16) :
    (HasChecksum (ChecksumAndAssemble f body).Header.Attributes = true →
      ((ChecksumAndAssemble f body).Header.Checksum.File +
        Checksum8 ((ChecksumAndAssemble f body).buf.drop
          (HeaderLen (ChecksumAndAssemble f body)))) % 256 = 0)
    ∧ (HasChecksum (ChecksumAndAssemble f body).Header.Attributes = false →
      (ChecksumAndAssemble f body).Header.Checksum.File = 0xAA) := by
  have hbody : (ChecksumAndAssemble f body).buf.drop
      (HeaderLen (ChecksumAndAssemble f body)) = body := by
    simp only [ChecksumAndAssemble, HeaderLen]
    cases hL : IsLarge f.Header.Attributes
    · simp only [Bool.false_eq_true, if_false]
      exact drop_append_all (by rw [serFileHeader_length]; simp [hg])
    · simp only [if_true]
      exact drop_append_all (by rw [serFileHeaderExtended_length]; simp [hg])
  rw [hbody]
  constructor
  · intro hc
    simp only [ChecksumAndAssemble] at hc ⊢
    rw [if_pos hc]
    have := checksum8_lt body
    unfold sub8
    omega
  · intro hc
    simp only [ChecksumAndAssemble] at hc ⊢
    rw [if_neg (by simp [hc])]

theorem assembled_body_checksum_witness :
    (HasChecksum (ChecksumAndAssemble checksummedFile [1]).Header.Attributes = true →
      ((ChecksumAndAssemble checksummedFile [1]).Header.Checksum.File +
        Checksum8 ((ChecksumAndAssemble checksummedFile [1]).buf.drop
          (HeaderLen (ChecksumAndAssemble checksummedFile [1])))) % 256 = 0)
    ∧ (HasChecksum (ChecksumAndAssemble checksummedFile [1]).Header.Attributes = false →
      (ChecksumAndAssemble checksummedFile [1]).Header.Checksum.File = 0xAA) :=
  assembled_body_checksum checksummedFile [1] (by decide)

theorem byteAt_lt {l : List Nat} (hb : ∀ b ∈ l, b < 256) {i : Nat}
    (hi : i < l.length) : byteAt l i < 256 := by
  unfold byteAt
  rw [List.getD_eq_getElem l 0 hi]
  exact hb _ (List.getElem_mem hi)

theorem byteAt_drop (l : List Nat) (n i : Nat) :
    byteAt (l.drop n) i = byteAt l (n + i) := by
  unfold byteAt
  simp [List.getD_eq_getElem?_getD, List.getElem?_drop]

theorem byteAt_eq_getElem (l : List Nat) (i : Nat) (h : i < l.length) :
    byteAt l i = l[i] := by
  unfold byteAt
  exact List.getD_eq_getElem l 0 h

theorem take_succ_byteAt (l : List Nat) (n : Nat) (h : n < l.length) :
    l.take (n + 1) = l.take n ++ [byteAt l n] := by
  rw [List.take_succ, byteAt_eq_getElem l n h, List.getElem?_eq_getElem h]
  rfl

theorem take8_eq (l : List Nat) (h : 8 ≤ l.length) :
    l.take 8 = [byteAt l 0, byteAt l 1, byteAt l 2, byteAt l 3,
      byteAt l 4, byteAt l 5, byteAt l 6, byteAt l 7] := by
  rw [show (8 : Nat) = 7 + 1 from rfl, take_succ_byteAt l 7 (by omega),
    show (7 : Nat) = 6 + 1 from rfl, take_succ_byteAt l 6 (by omega),
    show (6 : Nat) = 5 + 1 from rfl, take_succ_byteAt l 5 (by omega),
    show (5 : Nat) = 4 + 1 from rfl, take_succ_byteAt l 4 (by omega),
    show (4 : Nat) = 3 + 1 from rfl, take_succ_byteAt l 3 (by omega),
    show (3 : Nat) = 2 + 1 from rfl, take_succ_byteAt l 2 (by omega),
    show (2 : Nat) = 1 + 1 from rfl, take_succ_byteAt l 1 (by omega),
    show (1 : Nat) = 0 + 1 from rfl, take_succ_byteAt l 0 (by omega)]
  simp

theorem take24_decomp (l : List Nat) (h : 24 ≤ l.length) :
    l.take 24 = l.take 16 ++ [byteAt l 16, byteAt l 17, byteAt l 18,
      byteAt l 19, byteAt l 20, byteAt l 21, byteAt l 22, byteAt l 23] := by
  rw [show (24 : Nat) = 16 + 8 from rfl, List.take_add]
  rw [take8_eq (l.drop 16) (by simp; omega)]
  simp [byteAt_drop]

theorem take32_decomp (l : List Nat) (h : 32 ≤ l.length) :
    l.take 32 = l.take 24 ++ (l.drop 24).take 8 := by
  rw [show (32 : Nat) = 24 + 8 from rfl, List.take_add]

theorem readLE64_lt (c : List Nat) (hb : ∀ b ∈ c, b < 256) (h : 8 ≤ c.length) :
    readLE64 c < 18446744073709551616 := by
  unfold readLE64
  have h0 := byteAt_lt hb (show 0 < c.length by omega)
  have h1 := byteAt_lt hb (show 1 < c.length by omega)
  have h2 := byteAt_lt hb (show 2 < c.length by omega)
  have h3 := byteAt_lt hb (show 3 < c.length by omega)
  have h4 := byteAt_lt hb (show 4 < c.length by omega)
  have h5 := byteAt_lt hb (show 5 < c.length by omega)
  have h6 := byteAt_lt hb (show 6 < c.length by omega)
  have h7 := byteAt_lt hb (show 7 < c.length by omega)
  omega

theorem le64_readLE64 (b0 b1 b2 b3 b4 b5 b6 b7 : Nat)
    (h0 : b0 < 256) (h1 : b1 < 256) (h2 : b2 < 256) (h3 : b3 < 256)
    (h4 : b4 < 256) (h5 : b5 < 256) (h6 : b6 < 256) (h7 : b7 < 256) :
    le64 (readLE64 [b0, b1, b2, b3, b4, b5, b6, b7]) =
      [b0, b1, b2, b3, b4, b5, b6, b7] := by
  simp only [le64, readLE64, byteAt, List.getD_cons_zero, List.getD_cons_succ,
    List.cons.injEq, and_true]
  refine ⟨?_, ?_, ?_, ?_, ?_, ?_, ?_, ?_⟩ <;> omega

/-- Well-formedness of an input file window, the hypothesis of the
round-trip: bytes are bytes, the window is exactly the encoded file
(`ExtendedSize = length`), the large attribute agrees with the
`{0xFF,0xFF,0xFF}` size sentinel, the window is not free space, and both
checksums hold as `ChecksumAndAssemble` would (re)establish them
(spec §3 invariants 1–4). -/
def WfBuf (buf : List Nat) : Prop :=
  (∀ b ∈ buf, b < 256) ∧ 0x18 ≤ buf.length ∧
  (if (⟨byteAt buf 20, byteAt buf 21, byteAt buf 22⟩ : ThreeUint8) =
      ⟨0xFF, 0xFF, 0xFF⟩ then
    0x20 ≤ buf.length ∧ IsLarge (byteAt buf 19) = true ∧
    readLE64 ((buf.drop 24).take 8) = buf.length ∧
    buf.length ≠ 0xFFFFFFFFFFFFFFFF ∧
    sub8 (sub8 (Checksum8 (buf.take 0x20)) (byteAt buf 17)) (byteAt buf 23) = 0 ∧
    (if HasChecksum (byteAt buf 19) then
      byteAt buf 17 = sub8 0 (Checksum8 (buf.drop 0x20))
     else byteAt buf 17 = 0xAA)
  else
    IsLarge (byteAt buf 19) = false ∧
    Read3Size ⟨byteAt buf 20, byteAt buf 21, byteAt buf 22⟩ = buf.length ∧
    sub8 (sub8 (Checksum8 (buf.take 0x18)) (byteAt buf 17)) (byteAt buf 23) = 0 ∧
    (if HasChecksum (byteAt buf 19) then
      byteAt buf 17 = sub8 0 (Checksum8 (buf.drop 0x18))
     else byteAt buf 17 = 0xAA))

instance : DecidablePred WfBuf := fun buf => by
  unfold WfBuf
  infer_instance

theorem newFile_eval_small (ns : List Nat → Nat → Except Unit SectionRec)
    (buf : List Nat) (h24 : 0x18 ≤ buf.length)
    (hS : ¬(⟨byteAt buf 20, byteAt buf 21, byteAt buf 22⟩ : ThreeUint8) =
      ⟨0xFF, 0xFF, 0xFF⟩)
    (hExt : Read3Size ⟨byteAt buf 20, byteAt buf 21, byteAt buf 22⟩ = buf.length) :
    NewFile ns buf = newFileTail ns
      ⟨⟨⟨buf.take 16, ⟨byteAt buf 16, byteAt buf 17⟩, byteAt buf 18,
          byteAt buf 19, ⟨byteAt buf 20, byteAt buf 21, byteAt buf 22⟩,
          byteAt buf 23⟩,
        Read3Size ⟨byteAt buf 20, byteAt buf 21, byteAt buf 22⟩⟩,
       buf.take (Read3Size ⟨byteAt buf 20, byteAt buf 21, byteAt buf 22⟩),
       0x18⟩ := by
  simp only [NewFile]
  rw [if_neg (by omega), if_neg hS, if_neg (by omega)]

theorem newFile_eval_large (ns : List Nat → Nat → Except Unit SectionRec)
    (buf : List Nat) (h24 : 0x18 ≤ buf.length)
    (hS : (⟨byteAt buf 20, byteAt buf 21, byteAt buf 22⟩ : ThreeUint8) =
      ⟨0xFF, 0xFF, 0xFF⟩)
    (h32 : 0x20 ≤ buf.length)
    (hFree : readLE64 ((buf.drop 24).take 8) ≠ 0xFFFFFFFFFFFFFFFF)
    (hExt : readLE64 ((buf.drop 24).take 8) = buf.length) :
    NewFile ns buf = newFileTail ns
      ⟨⟨⟨buf.take 16, ⟨byteAt buf 16, byteAt buf 17⟩, byteAt buf 18,
          byteAt buf 19, ⟨byteAt buf 20, byteAt buf 21, byteAt buf 22⟩,
          byteAt buf 23⟩,
        readLE64 ((buf.drop 24).take 8)⟩,
       buf.take (readLE64 ((buf.drop 24).take 8)),
       0x20⟩ := by
  simp only [NewFile]
  rw [if_neg (by omega), if_pos hS, if_neg (by omega), if_neg hFree,
    if_neg (by omega)]

theorem roundtrip_small (buf : List Nat) (hb : ∀ b ∈ buf, b < 256)
    (h24 : 0x18 ≤ buf.length)
    (hLarge : IsLarge (byteAt buf 19) = false)
    (hsum : sub8 (sub8 (Checksum8 (buf.take 0x18)) (byteAt buf 17))
      (byteAt buf 23) = 0)
    (hbody : if HasChecksum (byteAt buf 19) then
        byteAt buf 17 = sub8 0 (Checksum8 (buf.drop 0x18))
      else byteAt buf 17 = 0xAA) :
    (ChecksumAndAssemble
      ⟨⟨⟨buf.take 16, ⟨byteAt buf 16, byteAt buf 17⟩, byteAt buf 18,
          byteAt buf 19, ⟨byteAt buf 20, byteAt buf 21, byteAt buf 22⟩,
          byteAt buf 23⟩, buf.length⟩, buf, 0x18⟩
      (buf.drop 0x18)).buf = buf := by
  have h16 : (buf.take 16).length = 16 := by
    rw [List.length_take]; omega
  have hser : serFileHeader ⟨buf.take 16, ⟨byteAt buf 16, byteAt buf 17⟩,
      byteAt buf 18, byteAt buf 19, ⟨byteAt buf 20, byteAt buf 21, byteAt buf 22⟩,
      byteAt buf 23⟩ = buf.take 24 := by
    rw [take24_decomp buf h24]
    simp [serFileHeader]
  have hckf : (if HasChecksum (byteAt buf 19) = true then
      sub8 0 (Checksum8 (buf.drop 0x18)) else 0xAA) = byteAt buf 17 := by
    by_cases hc : HasChecksum (byteAt buf 19) = true
    · rw [if_pos hc]; rw [if_pos hc] at hbody; exact hbody.symm
    · rw [if_neg hc]; rw [if_neg hc] at hbody; exact hbody.symm
  simp only [ChecksumAndAssemble, ChecksumHeader]
  simp only [hLarge, Bool.false_eq_true, if_false]
  simp only [serFileHeaderExtended]
  rw [take_append_all (show (serFileHeader _).length = 24 by
    rw [serFileHeader_length]; simp [h16])]
  rw [hser, hsum]
  rw [sub8_zero _ (byteAt_lt hb (by omega))]
  rw [hckf]
  rw [hser]
  exact List.take_append_drop 24 buf

theorem roundtrip_large (buf : List Nat) (hb : ∀ b ∈ buf, b < 256)
    (h32 : 0x20 ≤ buf.length)
    (hLarge : IsLarge (byteAt buf 19) = true)
    (hsum : sub8 (sub8 (Checksum8 (buf.take 0x20)) (byteAt buf 17))
      (byteAt buf 23) = 0)
    (hbody : if HasChecksum (byteAt buf 19) then
        byteAt buf 17 = sub8 0 (Checksum8 (buf.drop 0x20))
      else byteAt buf 17 = 0xAA)
    (hExt : readLE64 ((buf.drop 24).take 8) = buf.length) :
    (ChecksumAndAssemble
      ⟨⟨⟨buf.take 16, ⟨byteAt buf 16, byteAt buf 17⟩, byteAt buf 18,
          byteAt buf 19, ⟨byteAt buf 20, byteAt buf 21, byteAt buf 22⟩,
          byteAt buf 23⟩, buf.length⟩, buf, 0x20⟩
      (buf.drop 0x20)).buf = buf := by
  have h16 : (buf.take 16).length = 16 := by
    rw [List.length_take]; omega
  have hlt8 : 8 ≤ ((buf.drop 24).take 8).length := by
    rw [List.length_take, List.length_drop]; omega
  have hdrop8 : 8 ≤ (buf.drop 24).length := by
    rw [List.length_drop]; omega
  have hcb : ∀ b ∈ (buf.drop 24).take 8, b < 256 := fun b hm =>
    hb b (List.mem_of_mem_drop (List.mem_of_mem_take hm))
  have hmod : buf.length % 18446744073709551616 = buf.length := by
    have := readLE64_lt _ hcb hlt8
    omega
  have h8 : (buf.drop 24).take 8 = [byteAt buf 24, byteAt buf 25,
      byteAt buf 26, byteAt buf 27, byteAt buf 28, byteAt buf 29,
      byteAt buf 30, byteAt buf 31] := by
    rw [take8_eq _ hdrop8]
    simp [byteAt_drop]
  have hle : le64 (buf.length % 18446744073709551616) = (buf.drop 24).take 8 := by
    rw [hmod, ← hExt, h8]
    exact le64_readLE64 _ _ _ _ _ _ _ _
      (byteAt_lt hb (by omega)) (byteAt_lt hb (by omega))
      (byteAt_lt hb (by omega)) (byteAt_lt hb (by omega))
      (byteAt_lt hb (by omega)) (byteAt_lt hb (by omega))
      (byteAt_lt hb (by omega)) (byteAt_lt hb (by omega))
  have hser24 : serFileHeader ⟨buf.take 16, ⟨byteAt buf 16, byteAt buf 17⟩,
      byteAt buf 18, byteAt buf 19, ⟨byteAt buf 20, byteAt buf 21, byteAt buf 22⟩,
      byteAt buf 23⟩ = buf.take 24 := by
    rw [take24_decomp buf (by omega)]
    simp [serFileHeader]
  have hckf : (if HasChecksum (byteAt buf 19) = true then
      sub8 0 (Checksum8 (buf.drop 0x20)) else 0xAA) = byteAt buf 17 := by
    by_cases hc : HasChecksum (byteAt buf 19) = true
    · rw [if_pos hc]; rw [if_pos hc] at hbody; exact hbody.symm
    · rw [if_neg hc]; rw [if_neg hc] at hbody; exact hbody.symm
  simp only [ChecksumAndAssemble, ChecksumHeader]
  simp only [hLarge, if_true]
  simp only [serFileHeaderExtended]
  rw [hser24, hle, ← take32_decomp buf h32]
  rw [take_all_eq (show (buf.take 32).length = 32 by rw [List.length_take]; omega)]
  rw [hsum]
  rw [sub8_zero _ (byteAt_lt hb (by omega))]
  rw [hckf]
  rw [hser24]
  rw [← take32_decomp buf h32]
  exact List.take_append_drop 32 buf

/-- C1: for every well-formed input file buffer and every section decoder:
whenever `NewFile` returns a file, re-assembling it with
`ChecksumAndAssemble` on the unchanged body, with no mutation of any header
field in between, produces a buffer byte-identical to the input buffer —
and when the file's type is not in the decomposable set (the section walk
is skipped), `NewFile` is guaranteed to return a file.  For decomposable
types the delegated section decoder may reject the body, in which case
`NewFile` returns an error and there is no file to re-assemble. -/
theorem parse_assemble_roundtrip (ns : List Nat → Nat → Except Unit SectionRec)
    (buf : List Nat) (hwf : WfBuf buf) :
    (∀ f : File, NewFile ns buf = .ok (some f) →
      (ChecksumAndAssemble f (f.buf.drop f.DataOffset)).buf = buf)
    ∧ (SupportedFiles (byteAt buf 18) = false →
        ∃ f : File, NewFile ns buf = .ok (some f)) := by
  obtain ⟨hb, h24, hrest⟩ := hwf
  by_cases hS : (⟨byteAt buf 20, byteAt buf 21, byteAt buf 22⟩ : ThreeUint8) =
      ⟨0xFF, 0xFF, 0xFF⟩
  · rw [if_pos hS] at hrest
    obtain ⟨h32, hLarge, hExt, hneq, hsum, hbody⟩ := hrest
    have heval := newFile_eval_large ns buf h24 hS h32 (by rw [hExt]; exact hneq)
      hExt
    constructor
    · intro f hf
      rw [heval] at hf
      have hfe := newFileTail_ok hf
      subst hfe
      simp only [hExt, List.take_length]
      exact roundtrip_large buf hb h32 hLarge hsum hbody hExt
    · intro hsup
      exact ⟨_, heval.trans (newFileTail_unsupported hsup)⟩
  · rw [if_neg hS] at hrest
    obtain ⟨hLarge, hExt, hsum, hbody⟩ := hrest
    have heval := newFile_eval_small ns buf h24 hS hExt
    constructor
    · intro f hf
      rw [heval] at hf
      have hfe := newFileTail_ok hf
      subst hfe
      simp only [hExt, List.take_length]
      exact roundtrip_small buf hb h24 hLarge hsum hbody
    · intro hsup
      exact ⟨_, heval.trans (newFileTail_unsupported hsup)⟩

/-- A minimal well-formed 24-byte file window (an assembled pad file under
erase polarity `0xFF`; its type `0xF0` is not decomposable, so parsing is
guaranteed to succeed). -/
def wfWindow : List Nat :=
  List.replicate 16 0xFF ++ [0x08, 0xAA, 0xF0, 0x00, 0x18, 0x00, 0x00, 0xF8]

theorem parse_assemble_roundtrip_witness :
    (∀ f : File, NewFile stubSection wfWindow = .ok (some f) →
      (ChecksumAndAssemble f (f.buf.drop f.DataOffset)).buf = wfWindow)
    ∧ (SupportedFiles (byteAt wfWindow 18) = false →
        ∃ f : File, NewFile stubSection wfWindow = .ok (some f)) :=
  parse_assemble_roundtrip stubSection wfWindow (by decide)
